import Mathlib

/-!
# Doc-compare: unified comparison view and document preview

A shallow embedding of the logic in
`src/components/UnifiedComparisonView.jsx` (`createUnifiedContent`, `changes`,
`navigateToNext`, `navigateToPrevious`) and
`src/components/DocumentPreview.jsx` (`handleScroll`, `adjustScale`).

Conventions of the embedding:

* a JavaScript value that may be `null`/`undefined` is an `Option`;
* a property read `o.f` on such a value throws a `TypeError`, which is kept
  observable: fallible code returns `Except JSError`;
* JavaScript numbers (`JSNum`) are IEEE-754 doubles: a finite one is the rational
  it denotes, and division and multiplication round the exact result to the
  nearest double.
-/

namespace DocCompare

/-! ## JavaScript values -/

/-- The primitive JavaScript values that the fields of a diff record can hold. -/
inductive Val where
  | undefined
  | null
  | bool (b : Bool)
  | num (n : Int)
  | str (s : String)
  deriving DecidableEq, Repr

/-- JavaScript truthiness (`ToBoolean`). -/
def Val.truthy : Val → Bool
  | .undefined => false
  | .null => false
  | .bool b => b
  | .num n => n != 0
  | .str s => s != ""

/-- The only run-time failure the embedded code could raise. -/
inductive JSError where
  | typeError
  deriving DecidableEq, Repr

/-- Truthiness of a reference that is either an object or `null`/`undefined`. -/
def truthy {α : Type} (o : Option α) : Bool := o.isSome

/-- Property read `o.f`: a `TypeError` when `o` is `null`/`undefined`. -/
def member {α β : Type} (o : Option α) (f : α → β) : Except JSError β :=
  match o with
  | none => .error .typeError
  | some a => .ok (f a)

/-- Short-circuit `a && b` on conditions: `b` is evaluated only when `a` holds. -/
def jsAnd (a b : Except JSError Bool) : Except JSError Bool := do
  if (← a) then b else pure false

/-- Short-circuit `a || b` on values: `b` is evaluated only when `a` is falsy. -/
def jsOr (a b : Except JSError Val) : Except JSError Val := do
  let x ← a
  if x.truthy then pure x else b

/-! ## Data consumed and produced by `createUnifiedContent` -/

/-- A diff record, produced outside this repository part: `type`, `content`, `lineNumber`. -/
structure Diff where
  type : Val
  content : Val
  lineNumber : Val
  deriving DecidableEq, Repr

/-- The `comparison` prop: two arrays of diff records, each possibly absent,
with entries that may themselves be `null`/`undefined`. -/
structure Comparison where
  leftDiffs : Option (List (Option Diff))
  rightDiffs : Option (List (Option Diff))
  deriving DecidableEq, Repr

/-- The `leftDocument` / `rightDocument` props; only their presence and name are used. -/
structure Document where
  name : String
  deriving DecidableEq, Repr

/-- An element of the `unified` array.  A property that the object literal does
not set reads as `undefined`. -/
structure Item where
  id : String
  type : String
  content : Val := .undefined
  oldContent : Val := .undefined
  newContent : Val := .undefined
  leftLineNumber : Val
  rightLineNumber : Val
  index : Nat
  deriving DecidableEq, Repr

/-- The expression `xs?.length || 0`. -/
def optLength (xs : Option (List (Option Diff))) : Nat :=
  match xs with
  | none => 0
  | some l => l.length

/-- The expression `xs?.[i]`: `undefined` when `xs` is absent or `i` is out of range. -/
def optIndex (xs : Option (List (Option Diff))) (i : Nat) : Option Diff :=
  match xs with
  | none => none
  | some l => (l.get? i).join

/-- The condition `d.type === s`. -/
def typeIs (d : Option Diff) (s : String) : Except JSError Bool := do
  return decide ((← member d Diff.type) = Val.str s)

/-- One iteration of the `for` loop of `createUnifiedContent` (lines 20-91). -/
def loopBody (comparison : Option Comparison) (showUnchanged : Bool)
    (unified : List Item) (i : Nat) : Except JSError (List Item) := do
  let leftDiff := optIndex (← member comparison Comparison.leftDiffs) i
  let rightDiff := optIndex (← member comparison Comparison.rightDiffs) i
  if truthy leftDiff && truthy rightDiff then
    if (← jsAnd (typeIs leftDiff "unchanged") (typeIs rightDiff "unchanged")) then
      if showUnchanged then
        return unified ++ [{
          id := "unchanged-" ++ toString i
          type := "unchanged"
          content := ← jsOr (member leftDiff Diff.content) (member rightDiff Diff.content)
          leftLineNumber := ← member leftDiff Diff.lineNumber
          rightLineNumber := ← member rightDiff Diff.lineNumber
          index := i }]
      else
        return unified
    else if (← jsAnd (typeIs leftDiff "removed") (typeIs rightDiff "added")) then
      return unified ++ [{
        id := "modified-" ++ toString i
        type := "modified"
        oldContent := ← member leftDiff Diff.content
        newContent := ← member rightDiff Diff.content
        leftLineNumber := ← member leftDiff Diff.lineNumber
        rightLineNumber := ← member rightDiff Diff.lineNumber
        index := i }]
    else if (← jsAnd (typeIs leftDiff "removed") (typeIs rightDiff "empty")) then
      return unified ++ [{
        id := "removed-" ++ toString i
        type := "removed"
        content := ← member leftDiff Diff.content
        leftLineNumber := ← member leftDiff Diff.lineNumber
        rightLineNumber := Val.null
        index := i }]
    else if (← jsAnd (typeIs leftDiff "empty") (typeIs rightDiff "added")) then
      return unified ++ [{
        id := "added-" ++ toString i
        type := "added"
        content := ← member rightDiff Diff.content
        leftLineNumber := Val.null
        rightLineNumber := ← member rightDiff Diff.lineNumber
        index := i }]
    else
      return unified
  else if (← jsAnd (pure (truthy leftDiff)) (typeIs leftDiff "removed")) then
    return unified ++ [{
      id := "removed-" ++ toString i
      type := "removed"
      content := ← member leftDiff Diff.content
      leftLineNumber := ← member leftDiff Diff.lineNumber
      rightLineNumber := Val.null
      index := i }]
  else if (← jsAnd (pure (truthy rightDiff)) (typeIs rightDiff "added")) then
    return unified ++ [{
      id := "added-" ++ toString i
      type := "added"
      content := ← member rightDiff Diff.content
      leftLineNumber := Val.null
      rightLineNumber := ← member rightDiff Diff.lineNumber
      index := i }]
  else
    return unified

/-- The bound `maxLength` of the loop (lines 15-18). -/
def maxLength (comparison : Option Comparison) : Except JSError Nat := do
  return max (optLength (← member comparison Comparison.leftDiffs))
    (optLength (← member comparison Comparison.rightDiffs))

/-- The function `createUnifiedContent` (lines 11-94); its free variables
`comparison`, `leftDocument`, `rightDocument` and `showUnchanged` are arguments. -/
def createUnifiedContent (comparison : Option Comparison)
    (leftDocument rightDocument : Option Document) (showUnchanged : Bool) :
    Except JSError (List Item) := do
  if !truthy comparison || !truthy leftDocument || !truthy rightDocument then
    return []
  let n ← maxLength comparison
  (List.range n).foldlM (loopBody comparison showUnchanged) []

/-- The derived list `changes` (line 102): the items that are not 'unchanged'. -/
def changes (unifiedContent : List Item) : List Item :=
  unifiedContent.filter (fun item => item.type != "unchanged")

/-! ## Paging through the changes -/

/-- The state update of `navigateToNext` (lines 105-109): the new value of
`currentChange`.  The scrolling and highlighting of the target element that follow
the update do not touch this state and are left out. -/
def navigateToNext (changes : List Item) (currentChange : Nat) : Nat :=
  if changes.length = 0 then currentChange
  else (currentChange + 1) % changes.length

/-- The state update of `navigateToPrevious` (lines 124-128): the new value of
`currentChange`. -/
def navigateToPrevious (changes : List Item) (currentChange : Nat) : Nat :=
  if changes.length = 0 then currentChange
  else if currentChange = 0 then changes.length - 1 else currentChange - 1

/-! ## JavaScript numbers

A finite double is the rational it denotes.  Every arithmetic operation gives the
double nearest to the exact result (ties to even, gradual underflow), or an infinity
on overflow.  The sign of zero is not tracked. -/

/-- A JavaScript number: a finite double, an infinity, or NaN. -/
inductive JSNum where
  | fin (q : ℚ)
  | posInf
  | negInf
  | nan
  deriving DecidableEq

/-- The integer nearest to `y`, a tie going to the even one. -/
def roundHalfEven (y : ℚ) : Int :=
  let f := ⌊y⌋
  if y - f < 1 / 2 then f
  else if 1 / 2 < y - f then f + 1
  else if f % 2 = 0 then f else f + 1

/-- The binary exponent of the binade of `x > 0`, not below that of the subnormals. -/
def binadeExp (x : ℚ) : Int := max (Int.log 2 x) (-1022)

/-- The spacing of the doubles in the binade of `x > 0` (53 significant bits). -/
def ulp (x : ℚ) : ℚ := 2 ^ (binadeExp x - 52)

/-- The double nearest to `x ≥ 0`, the exponent not bounded above. -/
def roundPos (x : ℚ) : ℚ := roundHalfEven (x / ulp x) * ulp x

/-- The double nearest to `x`, the exponent not bounded above. -/
def roundDouble (x : ℚ) : ℚ := if x < 0 then -roundPos (-x) else roundPos x

/-- The JavaScript number that an operation with exact result `x` returns. -/
def JSNum.ofRat (x : ℚ) : JSNum :=
  let r := roundDouble x
  if 2 ^ 1024 ≤ r then .posInf
  else if r ≤ -2 ^ 1024 then .negInf
  else .fin r

/-- JavaScript division `a / b`. -/
def JSNum.div : JSNum → JSNum → JSNum
  | .fin a, .fin b =>
    if b = 0 then (if 0 < a then .posInf else if a < 0 then .negInf else .nan)
    else JSNum.ofRat (a / b)
  | .fin _, .posInf => .fin 0
  | .fin _, .negInf => .fin 0
  | .posInf, .fin b => if b < 0 then .negInf else .posInf
  | .negInf, .fin b => if b < 0 then .posInf else .negInf
  | _, _ => .nan

/-- JavaScript multiplication `a * b`. -/
def JSNum.mul : JSNum → JSNum → JSNum
  | .fin a, .fin b => JSNum.ofRat (a * b)
  | .fin a, .posInf => if 0 < a then .posInf else if a < 0 then .negInf else .nan
  | .fin a, .negInf => if 0 < a then .negInf else if a < 0 then .posInf else .nan
  | .posInf, .fin b => if 0 < b then .posInf else if b < 0 then .negInf else .nan
  | .negInf, .fin b => if 0 < b then .negInf else if b < 0 then .posInf else .nan
  | .posInf, .posInf => .posInf
  | .posInf, .negInf => .negInf
  | .negInf, .posInf => .negInf
  | .negInf, .negInf => .posInf
  | _, _ => .nan

/-- The integer that `Math.round` gives on a finite number: the nearest one, a tie
going up. -/
def mathRound (x : ℚ) : Int := ⌊x + 1 / 2⌋

/-- `Math.round`. -/
def JSNum.round : JSNum → JSNum
  | .fin x => .fin (mathRound x)
  | .posInf => .posInf
  | .negInf => .negInf
  | .nan => .nan

/-! ## `DocumentPreview`: scroll synchronisation -/

/-- The layout numbers of a scroll container that `handleScroll` reads.  The two
heights are integers of the DOM, on which subtraction and `Math.max` are exact. -/
structure Pane where
  scrollHeight : Int
  clientHeight : Int
  scrollTop : JSNum
  deriving DecidableEq

/-- The value `targetScrollTop` computed on lines 31-35. -/
def targetScrollTop (sourceContainer targetContainer : Pane) : JSNum :=
  let sourceMaxScroll : Int :=
    max 1 (sourceContainer.scrollHeight - sourceContainer.clientHeight)
  let targetMaxScroll : Int :=
    max 1 (targetContainer.scrollHeight - targetContainer.clientHeight)
  let scrollRatio := JSNum.div sourceContainer.scrollTop (.fin sourceMaxScroll)
  JSNum.round (JSNum.mul (.fin targetMaxScroll) scrollRatio)

/-- The two preview panes of the side-by-side view. -/
inductive Side where
  | left
  | right
  deriving DecidableEq, Repr

/-- One mounted `DocumentPreview`: its container, the `isSyncing` variable of its
effect closure, and the number of `setTimeout(…, 50)` resets it has scheduled. -/
structure Preview where
  container : Pane
  isSyncing : Bool
  pendingResets : Nat
  deriving DecidableEq

/-- The page with two previews.  `resolve s` is the element that the handler of pane
`s` obtains from the lookup `document.getElementById(targetId)` (`none` when it
obtains none); `queue` holds the scroll events dispatched and not yet handled;
`writes` counts the assignments to `scrollTop` made by the handlers. -/
structure Page where
  left : Preview
  right : Preview
  resolve : Side → Option Side
  queue : List Side
  writes : Nat

/-- The preview mounted on a side. -/
def Page.get (w : Page) : Side → Preview
  | .left => w.left
  | .right => w.right

/-- Replace the preview mounted on a side. -/
def Page.set (w : Page) (s : Side) (p : Preview) : Page :=
  match s with
  | .left => { w with left := p }
  | .right => { w with right := p }

/-- The handler `handleScroll` of the preview on side `s` (lines 17-46).  The
assignment to the target's `scrollTop` dispatches a scroll event to the target. -/
def handleScroll (w : Page) (s : Side) : Page :=
  if (w.get s).isSyncing then w
  else
    let sourceContainer := (w.get s).container
    match w.resolve s with
    | none => w
    | some t =>
      if t ≠ s then
        let targetContainer := (w.get t).container
        let value := targetScrollTop sourceContainer targetContainer
        let w1 := w.set s { w.get s with isSyncing := true }
        let w2 := w1.set t
          { w1.get t with container := { targetContainer with scrollTop := value } }
        let w3 := { w2 with queue := w2.queue ++ [t], writes := w2.writes + 1 }
        w3.set s { w3.get s with pendingResets := (w3.get s).pendingResets + 1 }
      else w

/-- Deliver the queued scroll events one after the other, at most `fuel` of them; no
timer fires in between. -/
def cascade : Nat → Page → Page
  | 0, w => w
  | fuel + 1, w =>
    match w.queue with
    | [] => w
    | s :: rest => cascade fuel (handleScroll { w with queue := rest } s)

/-! ## `DocumentPreview`: scaling the content -/

/-- The values of the `transform` style property that `adjustScale` sets. -/
inductive CssTransform where
  | none
  | scale (k : JSNum)
  deriving DecidableEq

/-- The values of the length properties that `adjustScale` sets. -/
inductive CssLength where
  | auto
  | percent (p : JSNum)
  | px (n : JSNum)
  deriving DecidableEq

/-- The style properties of the content element that `adjustScale` writes. -/
structure Style where
  transform : CssTransform
  transformOrigin : String
  width : CssLength
  height : CssLength
  minHeight : CssLength
  deriving DecidableEq

/-- The measurements taken on lines 172-177, after the reset of the styles: integers
of the DOM. -/
structure Measure where
  scrollWidth : Nat
  scrollHeight : Nat
  clientWidth : Nat
  clientHeight : Nat
  deriving DecidableEq, Repr

/-- The body of `adjustScale` (lines 166-194) for present content and container
elements: the style of the content element afterwards. -/
def adjustScale (style : Style) (m : Measure) : Style :=
  let contentWidth : Int := m.scrollWidth
  let containerWidth : Int := (m.clientWidth : Int) - 32
  let containerHeight : Int := (m.clientHeight : Int) - 32
  let contentHeight : Int := m.scrollHeight
  if contentWidth > containerWidth then
    let scale := JSNum.div (.fin containerWidth) (.fin contentWidth)
    { transform := .scale scale
      transformOrigin := "top left"
      width := .percent (JSNum.div (.fin 100) scale)
      height := .px (.fin contentHeight)
      minHeight := .px (JSNum.div (.fin containerHeight) scale) }
  else
    { style with
      transform := .none
      width := .percent (.fin 100)
      height := .auto
      minHeight := .px (.fin containerHeight) }

/-! ## Concrete inputs -/

/-- Element lookup for two previews whose ids are paired: the handler of each side
finds the container of the other side. -/
def pairedIds : Side → Option Side
  | .left => some .right
  | .right => some .left

/-- A page with two idle previews over the given containers, ids paired. -/
def pairedPage (l r : Pane) : Page :=
  { left := ⟨l, false, 0⟩, right := ⟨r, false, 0⟩, resolve := pairedIds,
    queue := [], writes := 0 }

/-- A list of three changes. -/
def threeChanges : List Item :=
  [ { id := "removed-0", type := "removed", content := .str "a",
      leftLineNumber := .num 1, rightLineNumber := .null, index := 0 },
    { id := "added-1", type := "added", content := .str "b",
      leftLineNumber := .null, rightLineNumber := .num 1, index := 1 },
    { id := "modified-2", type := "modified", oldContent := .str "c", newContent := .str "d",
      leftLineNumber := .num 2, rightLineNumber := .num 2, index := 2 } ]

/-- The style of a content element that has not been scaled yet. -/
def plainStyle : Style :=
  { transform := .none, transformOrigin := "", width := .auto, height := .auto,
    minHeight := .auto }

/-! ## A closed form of the loop, used in the proofs -/

/-- The item, if any, that iteration `i` appends, as a function of the two
entries read in that iteration. -/
def itemFor (showUnchanged : Bool) (leftDiff rightDiff : Option Diff) (i : Nat) :
    Option Item :=
  match leftDiff, rightDiff with
  | some l, some r =>
    if l.type = .str "unchanged" ∧ r.type = .str "unchanged" then
      if showUnchanged then
        some { id := "unchanged-" ++ toString i, type := "unchanged",
               content := if l.content.truthy then l.content else r.content,
               leftLineNumber := l.lineNumber, rightLineNumber := r.lineNumber, index := i }
      else none
    else if l.type = .str "removed" ∧ r.type = .str "added" then
      some { id := "modified-" ++ toString i, type := "modified",
             oldContent := l.content, newContent := r.content,
             leftLineNumber := l.lineNumber, rightLineNumber := r.lineNumber, index := i }
    else if l.type = .str "removed" ∧ r.type = .str "empty" then
      some { id := "removed-" ++ toString i, type := "removed", content := l.content,
             leftLineNumber := l.lineNumber, rightLineNumber := .null, index := i }
    else if l.type = .str "empty" ∧ r.type = .str "added" then
      some { id := "added-" ++ toString i, type := "added", content := r.content,
             leftLineNumber := .null, rightLineNumber := r.lineNumber, index := i }
    else none
  | some l, none =>
    if l.type = .str "removed" then
      some { id := "removed-" ++ toString i, type := "removed", content := l.content,
             leftLineNumber := l.lineNumber, rightLineNumber := .null, index := i }
    else none
  | none, some r =>
    if r.type = .str "added" then
      some { id := "added-" ++ toString i, type := "added", content := r.content,
             leftLineNumber := .null, rightLineNumber := r.lineNumber, index := i }
    else none
  | none, none => none

/-- The item, if any, that iteration `i` appends for a present comparison. -/
def itemAt (cmp : Comparison) (showUnchanged : Bool) (i : Nat) : Option Item :=
  itemFor showUnchanged (optIndex cmp.leftDiffs i) (optIndex cmp.rightDiffs i) i

/-- The number of iterations for a present comparison. -/
def loopBound (cmp : Comparison) : Nat :=
  max (optLength cmp.leftDiffs) (optLength cmp.rightDiffs)

/-! # Proofs -/

theorem typeIs_some (d : Diff) (s : String) :
    typeIs (some d) s = .ok (decide (d.type = .str s)) := rfl

theorem jsAnd_ok (a b : Bool) :
    jsAnd (.ok a) (.ok b) = .ok (a && b) := by
  cases a <;> rfl

theorem jsAnd_false (b : Except JSError Bool) :
    jsAnd (.ok false) b = .ok false := rfl

theorem jsAnd_true (b : Except JSError Bool) :
    jsAnd (.ok true) b = b := rfl

theorem jsOr_ok (a b : Val) :
    jsOr (.ok a) (.ok b) = .ok (if a.truthy then a else b) := by
  unfold jsOr
  cases h : a.truthy <;> simp [bind, Except.bind, pure, Except.pure, h]

theorem member_some {α β : Type} (a : α) (f : α → β) : member (some a) f = .ok (f a) := rfl

theorem except_ok_bind {α β : Type} (a : α) (f : α → Except JSError β) :
    (Except.ok a >>= f) = f a := rfl

theorem loopBody_some (cmp : Comparison) (su : Bool) (unified : List Item) (i : Nat) :
    loopBody (some cmp) su unified i = .ok (unified ++ (itemAt cmp su i).toList) := by
  unfold loopBody itemAt
  simp only [member_some, except_ok_bind]
  cases hl : optIndex cmp.leftDiffs i <;> cases hr : optIndex cmp.rightDiffs i
  · simp [jsAnd_false, truthy, itemFor, bind, Except.bind, pure, Except.pure]
  · simp [member_some, typeIs_some, jsAnd_false, jsAnd_true, truthy,
      itemFor, bind, Except.bind, pure, Except.pure]
    split_ifs <;> simp
  · simp [member_some, typeIs_some, jsAnd_false, jsAnd_true, truthy,
      itemFor, bind, Except.bind, pure, Except.pure]
    split_ifs <;> simp
  · simp [member_some, typeIs_some, jsAnd_ok, jsOr_ok, truthy,
      itemFor, bind, Except.bind, pure, Except.pure]
    split_ifs <;> simp

theorem foldlM_loopBody (cmp : Comparison) (su : Bool) (l : List Nat) (unified : List Item) :
    l.foldlM (loopBody (some cmp) su) unified
      = .ok (unified ++ l.filterMap (itemAt cmp su)) := by
  induction l generalizing unified with
  | nil => simp [pure, Except.pure]
  | cons i rest ih =>
    rw [List.foldlM_cons, loopBody_some, except_ok_bind, ih]
    cases h : itemAt cmp su i <;> simp [List.filterMap_cons, h]

/-- Closed form of `createUnifiedContent` when the three props are present. -/
theorem createUnifiedContent_present (cmp : Comparison) (ld rd : Document) (su : Bool) :
    createUnifiedContent (some cmp) (some ld) (some rd) su
      = .ok ((List.range (loopBound cmp)).filterMap (itemAt cmp su)) := by
  unfold createUnifiedContent maxLength
  simp only [truthy, Option.isSome, Bool.not_true, Bool.or_self, Bool.false_eq_true, if_false,
    member_some]
  show (List.range (loopBound cmp)).foldlM (loopBody (some cmp) su) [] = _
  rw [foldlM_loopBody]
  rfl

/-- The guard on line 12: an absent prop gives the empty list. -/
theorem createUnifiedContent_absent (c : Option Comparison) (l r : Option Document)
    (su : Bool) (h : c = none ∨ l = none ∨ r = none) :
    createUnifiedContent c l r su = .ok [] := by
  rcases h with rfl | rfl | rfl <;> simp [createUnifiedContent, truthy, pure, Except.pure]

theorem itemFor_index (su : Bool) (l r : Option Diff) (i : Nat) (it : Item)
    (h : itemFor su l r i = some it) : it.index = i := by
  unfold itemFor at h
  split at h
  · split_ifs at h <;> simp at h <;> (subst h; rfl)
  · split_ifs at h
    simp at h
    subst h
    rfl
  · split_ifs at h
    simp at h
    subst h
    rfl
  · simp at h

theorem filter_index_filterMap_range (f : Nat → Option Item)
    (hf : ∀ j it, f j = some it → it.index = j) (i n : Nat) :
    ((List.range n).filterMap f).filter (fun it => decide (it.index = i))
      = if i < n then (f i).toList else [] := by
  induction n with
  | zero => simp
  | succ n ih =>
    rw [List.range_succ, List.filterMap_append, List.filter_append, ih]
    rcases Nat.lt_trichotomy i n with hlt | heq | hgt
    · have hne : ∀ it, f n = some it → ¬ it.index = i := by
        intro it hit hidx
        have := hf n it hit
        omega
      have hlt2 : i < n + 1 := by omega
      cases hfn : f n with
      | none => simp [hlt, hlt2, hfn]
      | some it => simp [hlt, hlt2, hfn, hne it hfn]
    · subst heq
      cases hfn : f i with
      | none => simp [hfn]
      | some it => simp [hfn, hf i it hfn]
    · have h1 : ¬ i < n := by omega
      have h2 : ¬ i < n + 1 := by omega
      have hne : ∀ it, f n = some it → ¬ it.index = i := by
        intro it hit hidx
        have := hf n it hit
        omega
      cases hfn : f n with
      | none => simp [h1, h2, hfn]
      | some it => simp [h1, h2, hfn, hne it hfn]

theorem optIndex_lt (xs : Option (List (Option Diff))) (i : Nat) (d : Diff)
    (h : optIndex xs i = some d) : i < optLength xs := by
  cases xs with
  | none => simp [optIndex] at h
  | some l =>
    simp only [optIndex, optLength] at *
    by_contra hge
    have hnone : l.get? i = none := List.get?_eq_none.mpr (by omega)
    rw [hnone] at h
    simp at h

/-- The items of the result that carry index `i`: exactly what iteration `i` appended. -/
theorem createUnifiedContent_at (cmp : Comparison) (ld rd : Document) (su : Bool) (i : Nat)
    (hi : i < loopBound cmp) :
    ∃ items, createUnifiedContent (some cmp) (some ld) (some rd) su = .ok items ∧
      items.filter (fun it => decide (it.index = i)) = (itemAt cmp su i).toList := by
  refine ⟨_, createUnifiedContent_present cmp ld rd su, ?_⟩
  rw [filter_index_filterMap_range (itemAt cmp su)
    (fun j it h => itemFor_index su _ _ j it h), if_pos hi]

theorem lt_loopBound_left (cmp : Comparison) (i : Nat) (d : Diff)
    (h : optIndex cmp.leftDiffs i = some d) : i < loopBound cmp :=
  lt_of_lt_of_le (optIndex_lt _ _ _ h) (le_max_left _ _)

theorem lt_loopBound_right (cmp : Comparison) (i : Nat) (d : Diff)
    (h : optIndex cmp.rightDiffs i = some d) : i < loopBound cmp :=
  lt_of_lt_of_le (optIndex_lt _ _ _ h) (le_max_right _ _)

/-- C2: where `leftDiffs[i].type` is 'removed' and `rightDiffs[i].type` is 'added', the
result of `createUnifiedContent` holds exactly one item with index `i`; it has type
'modified', id 'modified-i', the left content as `oldContent`, the right content as
`newContent`, and the line numbers of the two records. -/
theorem createUnifiedContent_modified (cmp : Comparison) (ld rd : Document) (su : Bool)
    (i : Nat) (l r : Diff)
    (hl : optIndex cmp.leftDiffs i = some l) (hr : optIndex cmp.rightDiffs i = some r)
    (hlt : l.type = .str "removed") (hrt : r.type = .str "added") :
    ∃ items, createUnifiedContent (some cmp) (some ld) (some rd) su = .ok items ∧
      items.filter (fun it => decide (it.index = i)) =
        [{ id := "modified-" ++ toString i, type := "modified",
           oldContent := l.content, newContent := r.content,
           leftLineNumber := l.lineNumber, rightLineNumber := r.lineNumber, index := i }] := by
  obtain ⟨items, hok, hfil⟩ :=
    createUnifiedContent_at cmp ld rd su i (lt_loopBound_left cmp i l hl)
  refine ⟨items, hok, ?_⟩
  rw [hfil]
  simp [itemAt, itemFor, hl, hr, hlt, hrt]

theorem createUnifiedContent_modified_witness :
    ∃ items, createUnifiedContent
        (some ⟨some [some ⟨.str "removed", .str "old", .num 1⟩],
               some [some ⟨.str "added", .str "new", .num 1⟩]⟩)
        (some ⟨"a.docx"⟩) (some ⟨"b.docx"⟩) true = .ok items ∧
      items.filter (fun it => decide (it.index = 0)) =
        [{ id := "modified-" ++ toString 0, type := "modified",
           oldContent := .str "old", newContent := .str "new",
           leftLineNumber := .num 1, rightLineNumber := .num 1, index := 0 }] :=
  createUnifiedContent_modified _ _ _ _ 0 ⟨.str "removed", .str "old", .num 1⟩
    ⟨.str "added", .str "new", .num 1⟩ rfl rfl rfl rfl

/-- C4, as stated, fails: with both records 'unchanged', an empty left content and a
non-empty right content, the item produced for the index carries the right content. -/
theorem createUnifiedContent_unchanged_left_content_counterexample :
    createUnifiedContent
        (some ⟨some [some ⟨.str "unchanged", .str "", .num 1⟩],
               some [some ⟨.str "unchanged", .str "same", .num 1⟩]⟩)
        (some ⟨"a.docx"⟩) (some ⟨"b.docx"⟩) true
      = .ok [{ id := "unchanged-0", type := "unchanged", content := .str "same",
               leftLineNumber := .num 1, rightLineNumber := .num 1, index := 0 }]
    ∧ Val.str "same" ≠ Val.str "" :=
  ⟨rfl, by decide⟩

/-- C4 (amended): where `leftDiffs[i]` and `rightDiffs[i]` both have type 'unchanged' and
`showUnchanged` is true, the result holds exactly one item with index `i`; it has type
'unchanged' and its content is `leftDiffs[i].content` when that value is truthy, and
`rightDiffs[i].content` otherwise. -/
theorem createUnifiedContent_unchanged (cmp : Comparison) (ld rd : Document)
    (i : Nat) (l r : Diff)
    (hl : optIndex cmp.leftDiffs i = some l) (hr : optIndex cmp.rightDiffs i = some r)
    (hlt : l.type = .str "unchanged") (hrt : r.type = .str "unchanged") :
    ∃ items, createUnifiedContent (some cmp) (some ld) (some rd) true = .ok items ∧
      items.filter (fun it => decide (it.index = i)) =
        [{ id := "unchanged-" ++ toString i, type := "unchanged",
           content := if l.content.truthy then l.content else r.content,
           leftLineNumber := l.lineNumber, rightLineNumber := r.lineNumber, index := i }] := by
  obtain ⟨items, hok, hfil⟩ :=
    createUnifiedContent_at cmp ld rd true i (lt_loopBound_left cmp i l hl)
  refine ⟨items, hok, ?_⟩
  rw [hfil]
  simp [itemAt, itemFor, hl, hr, hlt, hrt]

theorem createUnifiedContent_unchanged_witness :
    ∃ items, createUnifiedContent
        (some ⟨some [some ⟨.str "unchanged", .str "", .num 1⟩],
               some [some ⟨.str "unchanged", .str "same", .num 2⟩]⟩)
        (some ⟨"a.docx"⟩) (some ⟨"b.docx"⟩) true = .ok items ∧
      items.filter (fun it => decide (it.index = 0)) =
        [{ id := "unchanged-" ++ toString 0, type := "unchanged",
           content := if (Val.str "").truthy then .str "" else .str "same",
           leftLineNumber := .num 1, rightLineNumber := .num 2, index := 0 }] :=
  createUnifiedContent_unchanged _ _ _ 0 ⟨.str "unchanged", .str "", .num 1⟩
    ⟨.str "unchanged", .str "same", .num 2⟩ rfl rfl rfl rfl

/-- C1, as stated, fails: a 'removed' left record paired with an 'unchanged' right
record produces no item at all. -/
theorem createUnifiedContent_shows_change_counterexample :
    optIndex (some [some ⟨.str "removed", .str "old", .num 1⟩]) 0
        = some ⟨.str "removed", .str "old", .num 1⟩
    ∧ createUnifiedContent
        (some ⟨some [some ⟨.str "removed", .str "old", .num 1⟩],
               some [some ⟨.str "unchanged", .str "kept", .num 1⟩]⟩)
        (some ⟨"a.docx"⟩) (some ⟨"b.docx"⟩) true = .ok [] :=
  ⟨rfl, rfl⟩

/-- C1 (amended): with the comparison and both documents present, if `leftDiffs[i]`
exists with type 'removed' and `rightDiffs[i]` is absent or has type 'added' or 'empty',
the result contains an item with index `i` that has type 'removed' and the record's
content as `content`, or type 'modified' and the record's content as `oldContent`; and
if `rightDiffs[i]` exists with type 'added' and `leftDiffs[i]` is absent or has type
'removed' or 'empty', the result contains an item with index `i` that has type 'added'
and the record's content as `content`, or type 'modified' and the record's content as
`newContent`. -/
theorem createUnifiedContent_shows_change (cmp : Comparison) (ld rd : Document)
    (su : Bool) (i : Nat) (d : Diff) :
    (optIndex cmp.leftDiffs i = some d → d.type = .str "removed" →
      (optIndex cmp.rightDiffs i = none ∨
        ∃ r, optIndex cmp.rightDiffs i = some r ∧
          (r.type = .str "added" ∨ r.type = .str "empty")) →
      ∃ items, createUnifiedContent (some cmp) (some ld) (some rd) su = .ok items ∧
        ∃ it ∈ items, it.index = i ∧
          ((it.type = "removed" ∧ it.content = d.content) ∨
           (it.type = "modified" ∧ it.oldContent = d.content)))
    ∧
    (optIndex cmp.rightDiffs i = some d → d.type = .str "added" →
      (optIndex cmp.leftDiffs i = none ∨
        ∃ l, optIndex cmp.leftDiffs i = some l ∧
          (l.type = .str "removed" ∨ l.type = .str "empty")) →
      ∃ items, createUnifiedContent (some cmp) (some ld) (some rd) su = .ok items ∧
        ∃ it ∈ items, it.index = i ∧
          ((it.type = "added" ∧ it.content = d.content) ∨
           (it.type = "modified" ∧ it.newContent = d.content))) := by
  have key : ∀ P : Item → Prop, i < loopBound cmp →
      (∃ x, itemAt cmp su i = some x ∧ P x) →
      ∃ items, createUnifiedContent (some cmp) (some ld) (some rd) su = .ok items ∧
        ∃ it ∈ items, P it := by
    rintro P hi ⟨x, hx, hP⟩
    refine ⟨_, createUnifiedContent_present cmp ld rd su, x, ?_, hP⟩
    rw [List.mem_filterMap]
    exact ⟨i, List.mem_range.mpr hi, hx⟩
  constructor
  · intro hl hlt hr
    apply key _ (lt_loopBound_left cmp i d hl)
    rcases hr with hr | ⟨r, hr, hrt | hrt⟩ <;> simp [itemAt, itemFor, hl, hr, hlt, *]
  · intro hr hrt hl
    apply key _ (lt_loopBound_right cmp i d hr)
    rcases hl with hl | ⟨l, hl, hlt | hlt⟩ <;> simp [itemAt, itemFor, hl, hr, hrt, *]

theorem createUnifiedContent_shows_change_witness :
    ∃ items, createUnifiedContent
        (some ⟨some [some ⟨.str "removed", .str "old", .num 1⟩],
               some [some ⟨.str "empty", .str "", .undefined⟩]⟩)
        (some ⟨"a.docx"⟩) (some ⟨"b.docx"⟩) false = .ok items ∧
      ∃ it ∈ items, it.index = 0 ∧
        ((it.type = "removed" ∧ it.content = .str "old") ∨
         (it.type = "modified" ∧ it.oldContent = .str "old")) :=
  (createUnifiedContent_shows_change
      ⟨some [some ⟨.str "removed", .str "old", .num 1⟩],
       some [some ⟨.str "empty", .str "", .undefined⟩]⟩
      ⟨"a.docx"⟩ ⟨"b.docx"⟩ false 0 ⟨.str "removed", .str "old", .num 1⟩).1 rfl rfl
    (Or.inr ⟨⟨.str "empty", .str "", .undefined⟩, rfl, Or.inr rfl⟩)

theorem itemFor_hidden (l r : Option Diff) (i : Nat) :
    itemFor false l r i
      = (itemFor true l r i).filter (fun item => item.type != "unchanged") := by
  unfold itemFor
  split
  · split_ifs <;> simp_all [Option.filter]
  · split_ifs <;> simp_all [Option.filter]
  · split_ifs <;> simp_all [Option.filter]
  · rfl

/-- C3: hiding unchanged content removes only unchanged items.  Both settings of
`showUnchanged` return a list; the hidden list is the shown list with the items of type
'unchanged' filtered out, the two lists have the same `changes`, and the hidden list
holds no 'unchanged' item. -/
theorem createUnifiedContent_hide_unchanged (comparison : Option Comparison)
    (leftDocument rightDocument : Option Document) :
    ∃ shown hidden,
      createUnifiedContent comparison leftDocument rightDocument true = .ok shown ∧
      createUnifiedContent comparison leftDocument rightDocument false = .ok hidden ∧
      hidden = shown.filter (fun item => item.type != "unchanged") ∧
      changes hidden = changes shown ∧
      hidden.all (fun item => item.type != "unchanged") = true := by
  have habs : ∀ su, (comparison = none ∨ leftDocument = none ∨ rightDocument = none) →
      createUnifiedContent comparison leftDocument rightDocument su = .ok [] :=
    fun su h => createUnifiedContent_absent _ _ _ su h
  cases comparison with
  | none => exact ⟨[], [], habs true (Or.inl rfl), habs false (Or.inl rfl), rfl, rfl, rfl⟩
  | some cmp =>
    cases leftDocument with
    | none =>
      exact ⟨[], [], habs true (Or.inr (Or.inl rfl)), habs false (Or.inr (Or.inl rfl)),
        rfl, rfl, rfl⟩
    | some ld =>
      cases rightDocument with
      | none =>
        exact ⟨[], [], habs true (Or.inr (Or.inr rfl)), habs false (Or.inr (Or.inr rfl)),
          rfl, rfl, rfl⟩
      | some rd =>
        have hrel : (List.range (loopBound cmp)).filterMap (itemAt cmp false)
            = ((List.range (loopBound cmp)).filterMap (itemAt cmp true)).filter
                (fun item => item.type != "unchanged") := by
          rw [List.filter_filterMap]
          congr 1
          funext i
          exact itemFor_hidden _ _ i
        refine ⟨_, _, createUnifiedContent_present cmp ld rd true,
          createUnifiedContent_present cmp ld rd false, hrel, ?_, ?_⟩
        · rw [hrel]
          simp [changes, List.filter_filter]
        · rw [hrel, List.all_eq_true]
          intro x hx
          exact (List.mem_filter.mp hx).2

/-- `createUnifiedContent` never raises: it returns a list on every input. -/
theorem createUnifiedContent_total (c : Option Comparison) (l r : Option Document)
    (su : Bool) : ∃ items, createUnifiedContent c l r su = .ok items := by
  cases c with
  | none => exact ⟨[], createUnifiedContent_absent _ _ _ su (Or.inl rfl)⟩
  | some cmp =>
    cases l with
    | none => exact ⟨[], createUnifiedContent_absent _ _ _ su (Or.inr (Or.inl rfl))⟩
    | some ld =>
      cases r with
      | none => exact ⟨[], createUnifiedContent_absent _ _ _ su (Or.inr (Or.inr rfl))⟩
      | some rd => exact ⟨_, createUnifiedContent_present cmp ld rd su⟩

/-- C8: defensive null-checks of `createUnifiedContent`.  An absent `comparison`,
`leftDocument` or `rightDocument` gives the empty list; a present comparison with both
`leftDiffs` and `rightDiffs` absent gives the empty list; no input makes the function
raise; and when only one of the two arrays is absent the other one is processed up to
its length: each 'removed' left record, respectively each 'added' right record, gives
one item, in index order. -/
theorem createUnifiedContent_null_checks :
    (∀ l r su, createUnifiedContent none l r su = .ok []) ∧
    (∀ c r su, createUnifiedContent c none r su = .ok []) ∧
    (∀ c l su, createUnifiedContent c l none su = .ok []) ∧
    (∀ l r su, createUnifiedContent (some ⟨none, none⟩) l r su = .ok []) ∧
    (∀ c l r su, ∃ items, createUnifiedContent c l r su = .ok items) ∧
    (∀ xs ld rd su,
      createUnifiedContent (some ⟨some xs, none⟩) (some ld) (some rd) su
        = .ok ((List.range xs.length).filterMap (fun i =>
            (xs.get? i).join.bind (fun d =>
              if d.type = .str "removed" then
                some { id := "removed-" ++ toString i, type := "removed",
                       content := d.content, leftLineNumber := d.lineNumber,
                       rightLineNumber := .null, index := i }
              else none)))) ∧
    (∀ xs ld rd su,
      createUnifiedContent (some ⟨none, some xs⟩) (some ld) (some rd) su
        = .ok ((List.range xs.length).filterMap (fun i =>
            (xs.get? i).join.bind (fun d =>
              if d.type = .str "added" then
                some { id := "added-" ++ toString i, type := "added",
                       content := d.content, leftLineNumber := .null,
                       rightLineNumber := d.lineNumber, index := i }
              else none)))) := by
  refine ⟨fun l r su => createUnifiedContent_absent _ _ _ su (Or.inl rfl),
    fun c r su => createUnifiedContent_absent _ _ _ su (Or.inr (Or.inl rfl)),
    fun c l su => createUnifiedContent_absent _ _ _ su (Or.inr (Or.inr rfl)),
    ?_, createUnifiedContent_total, ?_, ?_⟩
  · intro l r su
    cases l with
    | none => exact createUnifiedContent_absent _ _ _ su (Or.inr (Or.inl rfl))
    | some ld =>
      cases r with
      | none => exact createUnifiedContent_absent _ _ _ su (Or.inr (Or.inr rfl))
      | some rd =>
        rw [createUnifiedContent_present]
        rfl
  · intro xs ld rd su
    rw [createUnifiedContent_present]
    have hb : loopBound ⟨some xs, none⟩ = xs.length := by simp [loopBound, optLength]
    rw [hb]
    congr 2
    funext i
    simp only [itemAt, optIndex]
    cases (xs.get? i).join <;> rfl
  · intro xs ld rd su
    rw [createUnifiedContent_present]
    have hb : loopBound ⟨none, some xs⟩ = xs.length := by simp [loopBound, optLength]
    rw [hb]
    congr 2
    funext i
    simp only [itemAt, optIndex]
    cases (xs.get? i).join <;> rfl

/-- C7: paging through the changes wraps around.  For a change list of length `n > 0`
and an index `c < n`, `navigateToNext` gives `(c + 1) mod n` and `navigateToPrevious`
gives `(c - 1) mod n`; both stay below `n`, and each undoes the other.  On the empty
list both leave the index as it is. -/
theorem navigate_cycles (changes : List Item) (c : Nat) (hc : c < changes.length) :
    navigateToNext changes c = (c + 1) % changes.length ∧
    ((navigateToPrevious changes c : Nat) : Int) = ((c : Int) - 1) % (changes.length : Int) ∧
    navigateToNext changes c < changes.length ∧
    navigateToPrevious changes c < changes.length ∧
    navigateToPrevious changes (navigateToNext changes c) = c ∧
    navigateToNext changes (navigateToPrevious changes c) = c ∧
    (∀ k, navigateToNext [] k = k ∧ navigateToPrevious [] k = k) := by
  have hn : changes.length ≠ 0 := by omega
  have hnext : navigateToNext changes c = (c + 1) % changes.length := by
    simp [navigateToNext, hn]
  have hprev : navigateToPrevious changes c
      = if c = 0 then changes.length - 1 else c - 1 := by
    simp [navigateToPrevious, hn]
  have hnext_lt : navigateToNext changes c < changes.length := by
    rw [hnext]; exact Nat.mod_lt _ (by omega)
  have hprev_lt : navigateToPrevious changes c < changes.length := by
    rw [hprev]; split_ifs <;> omega
  refine ⟨hnext, ?_, hnext_lt, hprev_lt, ?_, ?_, fun k => ⟨rfl, rfl⟩⟩
  · rw [hprev]
    by_cases h0 : c = 0
    · subst h0
      simp only [if_true, Nat.cast_zero, zero_sub]
      have hwrap : (-1 : Int) % (changes.length : Int) = (changes.length : Int) - 1 := by
        have hadd := Int.add_emod_self (a := -1) (b := (changes.length : Int))
        rw [← hadd, Int.emod_eq_of_lt] <;> omega
      rw [hwrap]
      omega
    · simp only [h0, if_false]
      rw [Int.emod_eq_of_lt] <;> omega
  · rw [hnext]
    by_cases hlast : c + 1 = changes.length
    · rw [hlast, Nat.mod_self]
      simp [navigateToPrevious, hn]
      omega
    · have hlt : c + 1 < changes.length := by omega
      rw [Nat.mod_eq_of_lt hlt]
      simp [navigateToPrevious, hn]
  · rw [hprev]
    by_cases h0 : c = 0
    · subst h0
      simp only [if_true]
      simp only [navigateToNext, hn, if_false]
      rw [Nat.sub_add_cancel (by omega), Nat.mod_self]
    · simp only [h0, if_false]
      simp only [navigateToNext, hn, if_false]
      rw [Nat.sub_add_cancel (by omega), Nat.mod_eq_of_lt hc]

theorem navigate_cycles_witness :
    2 < threeChanges.length ∧
    navigateToNext threeChanges 2 = (2 + 1) % threeChanges.length ∧
    navigateToPrevious threeChanges (navigateToNext threeChanges 2) = 2 :=
  ⟨by decide, (navigate_cycles threeChanges 2 (by decide)).1,
    (navigate_cycles threeChanges 2 (by decide)).2.2.2.2.1⟩

/-! ## Rounding to the nearest double -/

theorem roundHalfEven_floor_le (y : ℚ) : ⌊y⌋ ≤ roundHalfEven y := by
  unfold roundHalfEven
  simp only
  split_ifs <;> omega

theorem roundHalfEven_le_floor_succ (y : ℚ) : roundHalfEven y ≤ ⌊y⌋ + 1 := by
  unfold roundHalfEven
  simp only
  split_ifs <;> omega

theorem roundHalfEven_intCast (n : Int) : roundHalfEven (n : ℚ) = n := by
  unfold roundHalfEven
  simp

theorem roundHalfEven_abs_sub_le (y : ℚ) : |(roundHalfEven y : ℚ) - y| ≤ 1 / 2 := by
  have h1 := Int.floor_le y
  have h2 := Int.lt_floor_add_one y
  unfold roundHalfEven
  simp only
  rw [abs_le]
  split_ifs with ha hb hc <;> push_cast <;> constructor <;> linarith

theorem roundHalfEven_mono {y z : ℚ} (h : y ≤ z) : roundHalfEven y ≤ roundHalfEven z := by
  have hfl : ⌊y⌋ ≤ ⌊z⌋ := Int.floor_mono h
  rcases hfl.lt_or_eq with hlt | heq
  · have := roundHalfEven_le_floor_succ y
    have := roundHalfEven_floor_le z
    omega
  · unfold roundHalfEven
    simp only
    rw [heq]
    split_ifs <;> first | omega | (exfalso; linarith)

theorem roundHalfEven_eq_of_abs_lt (y : ℚ) (n : Int) (h : |y - n| < 1 / 2) :
    roundHalfEven y = n := by
  rw [abs_lt] at h
  have h1 := Int.floor_le y
  have h2 := Int.lt_floor_add_one y
  unfold roundHalfEven
  simp only
  have hcases : ⌊y⌋ = n ∨ ⌊y⌋ = n - 1 := by
    have a : (n : ℚ) - 1 < ⌊y⌋ + 1 := by linarith
    have b : (⌊y⌋ : ℚ) < n + 1 := by linarith
    have a' : n - 1 < ⌊y⌋ + 1 := by exact_mod_cast a
    have b' : ⌊y⌋ < n + 1 := by exact_mod_cast b
    omega
  rcases hcases with hc | hc
  · rw [hc] at h1 h2 ⊢
    rw [if_pos (by linarith)]
  · rw [hc] at h1 h2 ⊢
    push_cast at h1 h2 ⊢
    rw [if_neg (by linarith), if_pos (by linarith)]
    ring

theorem two_zpow_pos (a : Int) : (0 : ℚ) < 2 ^ a := zpow_pos (by norm_num) a

theorem two_zpow_add (a b : Int) : (2 : ℚ) ^ a * 2 ^ b = 2 ^ (a + b) :=
  (zpow_add₀ (by norm_num) a b).symm

theorem two_zpow_le {a b : Int} (h : a ≤ b) : (2 : ℚ) ^ a ≤ 2 ^ b :=
  zpow_le_zpow_right₀ (by norm_num) h

theorem ulp_pos (x : ℚ) : 0 < ulp x := two_zpow_pos _

theorem log_le_binadeExp (x : ℚ) : Int.log 2 x ≤ binadeExp x := le_max_left _ _

theorem binadeExp_mono {x y : ℚ} (hx : 0 < x) (h : x ≤ y) : binadeExp x ≤ binadeExp y :=
  max_le_max (Int.log_mono_right hx h) le_rfl

/-- The scaled significand is below `2 ^ 53`. -/
theorem div_ulp_lt (x : ℚ) : x / ulp x < 2 ^ (53 : Int) := by
  rw [div_lt_iff₀ (ulp_pos x), ulp, two_zpow_add]
  have h1 : x < (2 : ℚ) ^ (Int.log 2 x + 1) := by
    exact_mod_cast Int.lt_zpow_succ_log_self (by norm_num : 1 < 2) x
  have h2 : (2 : ℚ) ^ (Int.log 2 x + 1) ≤ 2 ^ ((53 : Int) + (binadeExp x - 52)) :=
    two_zpow_le (by have := log_le_binadeExp x; omega)
  linarith

/-- In the normal range the scaled significand is at least `2 ^ 52`. -/
theorem le_div_ulp (x : ℚ) (hx : 0 < x) (hn : -1022 ≤ Int.log 2 x) :
    2 ^ (52 : Int) ≤ x / ulp x := by
  rw [le_div_iff₀ (ulp_pos x), ulp, two_zpow_add]
  have h1 : (2 : ℚ) ^ (Int.log 2 x) ≤ x := by
    exact_mod_cast Int.zpow_log_le_self (by norm_num : 1 < 2) hx
  have he : binadeExp x = Int.log 2 x := max_eq_left hn
  rw [he]
  have : (52 : Int) + (Int.log 2 x - 52) = Int.log 2 x := by ring
  rw [this]
  exact h1

theorem roundPos_zero : roundPos 0 = 0 := by
  simp [roundPos, roundHalfEven]

theorem roundPos_nonneg {x : ℚ} (hx : 0 ≤ x) : 0 ≤ roundPos x := by
  unfold roundPos
  apply mul_nonneg _ (ulp_pos x).le
  have h0 : (0 : ℚ) ≤ x / ulp x := div_nonneg hx (ulp_pos x).le
  have : roundHalfEven ((0 : Int) : ℚ) ≤ roundHalfEven (x / ulp x) :=
    roundHalfEven_mono (by simpa using h0)
  rw [roundHalfEven_intCast] at this
  exact_mod_cast this

theorem roundPos_le_pow (x : ℚ) : roundPos x ≤ 2 ^ (binadeExp x + 1) := by
  unfold roundPos
  have h : roundHalfEven (x / ulp x) ≤ roundHalfEven (((2 ^ 53 : Int)) : ℚ) :=
    roundHalfEven_mono (by have := div_ulp_lt x; push_cast; norm_num at this ⊢; linarith)
  rw [roundHalfEven_intCast] at h
  have h' : (roundHalfEven (x / ulp x) : ℚ) ≤ 2 ^ (53 : Int) := by
    have h2 : (roundHalfEven (x / ulp x) : ℚ) ≤ ((2 ^ 53 : Int) : ℚ) := by exact_mod_cast h
    norm_num at h2 ⊢
    exact h2
  calc (roundHalfEven (x / ulp x) : ℚ) * ulp x ≤ 2 ^ (53 : Int) * ulp x :=
        mul_le_mul_of_nonneg_right h' (ulp_pos x).le
    _ = 2 ^ (binadeExp x + 1) := by
        rw [ulp, two_zpow_add]; congr 1; ring

theorem pow_le_roundPos (x : ℚ) (hx : 0 < x) (hn : -1022 ≤ Int.log 2 x) :
    2 ^ (binadeExp x) ≤ roundPos x := by
  unfold roundPos
  have h : roundHalfEven (((2 ^ 52 : Int)) : ℚ) ≤ roundHalfEven (x / ulp x) :=
    roundHalfEven_mono (by have := le_div_ulp x hx hn; push_cast; norm_num at this ⊢; linarith)
  rw [roundHalfEven_intCast] at h
  have h' : (2 : ℚ) ^ (52 : Int) ≤ (roundHalfEven (x / ulp x) : ℚ) := by
    have h2 : ((2 ^ 52 : Int) : ℚ) ≤ (roundHalfEven (x / ulp x) : ℚ) := by exact_mod_cast h
    norm_num at h2 ⊢
    exact h2
  calc (2 : ℚ) ^ (binadeExp x) = 2 ^ (52 : Int) * ulp x := by
        rw [ulp, two_zpow_add]; congr 1; ring
    _ ≤ (roundHalfEven (x / ulp x) : ℚ) * ulp x :=
        mul_le_mul_of_nonneg_right h' (ulp_pos x).le

theorem roundPos_mono {x y : ℚ} (hx : 0 < x) (h : x ≤ y) : roundPos x ≤ roundPos y := by
  have hy : 0 < y := lt_of_lt_of_le hx h
  rcases (binadeExp_mono hx h).lt_or_eq with hlt | heq
  · have hny : -1022 ≤ Int.log 2 y := by
      by_contra hcon
      have : binadeExp y = -1022 := max_eq_right (by omega)
      have : -1022 ≤ binadeExp x := le_max_right _ _
      omega
    calc roundPos x ≤ 2 ^ (binadeExp x + 1) := roundPos_le_pow x
      _ ≤ 2 ^ (binadeExp y) := two_zpow_le (by omega)
      _ ≤ roundPos y := pow_le_roundPos y hy hny
  · have hu : ulp x = ulp y := by unfold ulp; rw [heq]
    unfold roundPos
    rw [hu]
    apply mul_le_mul_of_nonneg_right _ (ulp_pos y).le
    have : roundHalfEven (x / ulp y) ≤ roundHalfEven (y / ulp y) :=
      roundHalfEven_mono (div_le_div_of_nonneg_right h (ulp_pos y).le)
    exact_mod_cast this

theorem roundPos_mono_nonneg {x y : ℚ} (hx : 0 ≤ x) (h : x ≤ y) : roundPos x ≤ roundPos y := by
  rcases hx.lt_or_eq with hpos | hzero
  · exact roundPos_mono hpos h
  · rw [← hzero, roundPos_zero]
    exact roundPos_nonneg (by linarith)

theorem binadeExp_eq (x : ℚ) (e : Int) (hx : 0 < x) (h1 : (2 : ℚ) ^ e ≤ x)
    (h2 : x < (2 : ℚ) ^ (e + 1)) (he : -1022 ≤ e) : binadeExp x = e := by
  have hlog : Int.log 2 x = e := by
    have a : e ≤ Int.log 2 x :=
      (Int.zpow_le_iff_le_log (by norm_num : 1 < 2) hx).mp (by exact_mod_cast h1)
    have b : Int.log 2 x < e + 1 :=
      (Int.lt_zpow_iff_log_lt (by norm_num : 1 < 2) hx).mp (by exact_mod_cast h2)
    omega
  unfold binadeExp
  rw [hlog]
  exact max_eq_left he

theorem roundPos_eq_self (x : ℚ) (m : Int) (h : x = m * ulp x) : roundPos x = x := by
  unfold roundPos
  have hdiv : x / ulp x = (m : ℚ) := by
    rw [div_eq_iff (ulp_pos x).ne']
    exact h
  rw [hdiv, roundHalfEven_intCast]
  exact h.symm

theorem roundPos_eval (x : ℚ) (e n : Int) (hx : 0 < x) (h1 : (2 : ℚ) ^ e ≤ x)
    (h2 : x < (2 : ℚ) ^ (e + 1)) (he : -1022 ≤ e)
    (hn : |x / 2 ^ (e - 52) - n| < 1 / 2) : roundPos x = n * 2 ^ (e - 52) := by
  unfold roundPos ulp
  rw [binadeExp_eq x e hx h1 h2 he, roundHalfEven_eq_of_abs_lt _ n hn]

theorem roundPos_natCast (n : Nat) (h : n < 2 ^ 53) : roundPos (n : ℚ) = n := by
  rcases Nat.eq_zero_or_pos n with h0 | hpos
  · subst h0
    simpa using roundPos_zero
  · have hlog : Int.log 2 (n : ℚ) = (Nat.log 2 n : Int) := Int.log_natCast 2 n
    have hlt : Nat.log 2 n < 53 := Nat.log_lt_of_lt_pow (by omega) h
    have hexp : binadeExp (n : ℚ) = (Nat.log 2 n : Int) := by
      unfold binadeExp
      rw [hlog]
      exact max_eq_left (by omega)
    obtain ⟨k, hk⟩ : ∃ k : Nat, (Nat.log 2 n : Int) - 52 = -(k : Int) :=
      ⟨52 - Nat.log 2 n, by omega⟩
    apply roundPos_eq_self _ ((n * 2 ^ k : Nat) : Int)
    unfold ulp
    rw [hexp, hk, zpow_neg, zpow_natCast]
    push_cast
    field_simp

theorem roundPos_abs_sub_le (x : ℚ) (hx : 0 < x) (hn : -1022 ≤ Int.log 2 x) :
    |roundPos x - x| ≤ x * 2 ^ (-53 : Int) := by
  have hu := ulp_pos x
  have herr := roundHalfEven_abs_sub_le (x / ulp x)
  have hrw : roundPos x - x = ((roundHalfEven (x / ulp x) : ℚ) - x / ulp x) * ulp x := by
    unfold roundPos
    field_simp
  rw [hrw, abs_mul, abs_of_pos hu]
  have hux : ulp x ≤ x * 2 ^ (-52 : Int) := by
    have h1 : (2 : ℚ) ^ (Int.log 2 x) ≤ x := by
      exact_mod_cast Int.zpow_log_le_self (by norm_num : 1 < 2) hx
    have he : binadeExp x = Int.log 2 x := max_eq_left hn
    unfold ulp
    rw [he, show Int.log 2 x - 52 = Int.log 2 x + (-52) by ring, ← two_zpow_add]
    exact mul_le_mul_of_nonneg_right h1 (two_zpow_pos _).le
  have h53 : (2 : ℚ) ^ (-53 : Int) = 2 ^ (-52 : Int) / 2 := by norm_num
  calc |(roundHalfEven (x / ulp x) : ℚ) - x / ulp x| * ulp x ≤ 1 / 2 * ulp x :=
        mul_le_mul_of_nonneg_right herr hu.le
    _ ≤ 1 / 2 * (x * 2 ^ (-52 : Int)) := mul_le_mul_of_nonneg_left hux (by norm_num)
    _ = x * 2 ^ (-53 : Int) := by rw [h53]; ring

theorem roundPos_one : roundPos 1 = 1 := by
  simpa using roundPos_natCast 1 (by norm_num)

theorem roundPos_intCast (z : Int) (h0 : 0 ≤ z) (h : z < 2 ^ 53) : roundPos (z : ℚ) = z := by
  obtain ⟨n, rfl⟩ := Int.eq_ofNat_of_zero_le h0
  have hn : n < 2 ^ 53 := by exact_mod_cast h
  simpa using roundPos_natCast n hn

theorem roundPos_two_zpow (e : Int) (he : -1022 ≤ e) : roundPos ((2 : ℚ) ^ e) = 2 ^ e := by
  have hexp : binadeExp ((2 : ℚ) ^ e) = e :=
    binadeExp_eq _ e (two_zpow_pos e) le_rfl
      (zpow_lt_zpow_right₀ (by norm_num) (by omega)) he
  apply roundPos_eq_self _ (2 ^ 52 : Int)
  unfold ulp
  rw [hexp]
  push_cast
  rw [show (4503599627370496 : ℚ) = (2 : ℚ) ^ (52 : Int) by norm_num, two_zpow_add]
  congr 1
  ring

theorem roundDouble_of_nonneg {x : ℚ} (hx : 0 ≤ x) : roundDouble x = roundPos x := by
  unfold roundDouble
  rw [if_neg (not_lt.mpr hx)]

theorem ofRat_of_nonneg {x : ℚ} (hx : 0 ≤ x) (hlt : roundPos x < 2 ^ 1024) :
    JSNum.ofRat x = .fin (roundPos x) := by
  have h0 := roundPos_nonneg hx
  unfold JSNum.ofRat
  simp only [roundDouble_of_nonneg hx]
  rw [if_neg (not_le.mpr hlt), if_neg]
  have : (0 : ℚ) < 2 ^ 1024 := by positivity
  intro hcon
  linarith

theorem mathRound_nonneg (x : ℚ) (hx : 0 ≤ x) : 0 ≤ mathRound x := by
  unfold mathRound
  exact Int.floor_nonneg.mpr (by linarith)

theorem mathRound_le (x : ℚ) (z : Int) (hx : x ≤ z) : mathRound x ≤ z := by
  unfold mathRound
  have h : ⌊x + 1 / 2⌋ < z + 1 := by
    rw [Int.floor_lt]
    push_cast
    linarith
  omega

theorem mathRound_intCast (z : Int) : mathRound (z : ℚ) = z := by
  unfold mathRound
  rw [Int.floor_eq_iff]
  constructor <;> linarith

/-- The value that `handleScroll` assigns to the target's `scrollTop`. -/
theorem handleScroll_writes (w : Page) (s t : Side)
    (hsync : (w.get s).isSyncing = false) (hres : w.resolve s = some t) (hne : t ≠ s) :
    ((handleScroll w s).get t).container.scrollTop
      = targetScrollTop (w.get s).container (w.get t).container := by
  cases s <;> cases t <;> simp_all [handleScroll, Page.get, Page.set]

/-- The double computation of lines 31-35 on a source scrolled within its range and a
target range below `2 ^ 53`: the two roundings stay within `[0, 1]` and `[0, max(1,T)]`. -/
theorem targetScrollTop_fin (src tgt : Pane) (top : ℚ)
    (htop : src.scrollTop = .fin top) (h0 : 0 ≤ top)
    (hS : top ≤ ((src.scrollHeight - src.clientHeight : Int) : ℚ))
    (hT : tgt.scrollHeight - tgt.clientHeight < 2 ^ 53) :
    targetScrollTop src tgt
      = .fin (mathRound (roundDouble
          (((max 1 (tgt.scrollHeight - tgt.clientHeight) : Int) : ℚ)
            * roundDouble (top / ((max 1 (src.scrollHeight - src.clientHeight) : Int) : ℚ)))))
    ∧ 0 ≤ roundDouble
          (((max 1 (tgt.scrollHeight - tgt.clientHeight) : Int) : ℚ)
            * roundDouble (top / ((max 1 (src.scrollHeight - src.clientHeight) : Int) : ℚ)))
    ∧ roundDouble
          (((max 1 (tgt.scrollHeight - tgt.clientHeight) : Int) : ℚ)
            * roundDouble (top / ((max 1 (src.scrollHeight - src.clientHeight) : Int) : ℚ)))
        ≤ ((max 1 (tgt.scrollHeight - tgt.clientHeight) : Int) : ℚ) := by
  generalize hSdef : src.scrollHeight - src.clientHeight = S at *
  generalize hTdef : tgt.scrollHeight - tgt.clientHeight = T at *
  have hS1 : (1 : ℚ) ≤ ((max 1 S : Int) : ℚ) := by exact_mod_cast le_max_left 1 S
  have hSS : ((S : Int) : ℚ) ≤ ((max 1 S : Int) : ℚ) := by exact_mod_cast le_max_right 1 S
  have hT1 : (1 : ℚ) ≤ ((max 1 T : Int) : ℚ) := by exact_mod_cast le_max_left 1 T
  have hT53 : max 1 T < 2 ^ 53 := max_lt (by norm_num) hT
  have hSne : ((max 1 S : Int) : ℚ) ≠ 0 := by linarith
  have hq0 : 0 ≤ top / ((max 1 S : Int) : ℚ) := div_nonneg h0 (by linarith)
  have hq1 : top / ((max 1 S : Int) : ℚ) ≤ 1 := by
    rw [div_le_one (by linarith)]
    linarith
  have hr0 : 0 ≤ roundPos (top / ((max 1 S : Int) : ℚ)) := roundPos_nonneg hq0
  have hr1 : roundPos (top / ((max 1 S : Int) : ℚ)) ≤ 1 := by
    have := roundPos_mono_nonneg hq0 hq1
    rwa [roundPos_one] at this
  have hp0 : 0 ≤ ((max 1 T : Int) : ℚ) * roundPos (top / ((max 1 S : Int) : ℚ)) :=
    mul_nonneg (by linarith) hr0
  have hp1 : ((max 1 T : Int) : ℚ) * roundPos (top / ((max 1 S : Int) : ℚ))
      ≤ ((max 1 T : Int) : ℚ) := by nlinarith
  have hv0 : 0 ≤ roundPos (((max 1 T : Int) : ℚ) * roundPos (top / ((max 1 S : Int) : ℚ))) :=
    roundPos_nonneg hp0
  have hv1 : roundPos (((max 1 T : Int) : ℚ) * roundPos (top / ((max 1 S : Int) : ℚ)))
      ≤ ((max 1 T : Int) : ℚ) := by
    have := roundPos_mono_nonneg hp0 hp1
    rwa [roundPos_intCast (max 1 T) (by have := le_max_left 1 T; omega) hT53] at this
  have hbig : ((max 1 T : Int) : ℚ) < 2 ^ 1024 := by
    have h1 : ((max 1 T : Int) : ℚ) < ((2 ^ 53 : Int) : ℚ) := by exact_mod_cast hT53
    have h2 : ((2 ^ 53 : Int) : ℚ) < 2 ^ 1024 := by norm_num
    linarith
  have hdiv : JSNum.div (.fin top) (.fin ((max 1 S : Int) : ℚ))
      = .fin (roundPos (top / ((max 1 S : Int) : ℚ))) := by
    simp only [JSNum.div, if_neg hSne]
    exact ofRat_of_nonneg hq0 (lt_of_le_of_lt hr1 (by norm_num))
  have hmul : JSNum.mul (.fin ((max 1 T : Int) : ℚ))
        (.fin (roundPos (top / ((max 1 S : Int) : ℚ))))
      = .fin (roundPos (((max 1 T : Int) : ℚ) * roundPos (top / ((max 1 S : Int) : ℚ)))) := by
    simp only [JSNum.mul]
    exact ofRat_of_nonneg hp0 (lt_of_le_of_lt hv1 hbig)
  rw [roundDouble_of_nonneg hq0, roundDouble_of_nonneg hp0]
  refine ⟨?_, hv0, hv1⟩
  unfold targetScrollTop
  simp only [hSdef, hTdef, htop, hdiv, hmul, JSNum.round]


theorem roundPos_seven_tenths :
    roundPos (7 / 10) = 6305039478318694 * 2 ^ (-53 : Int) := by
  have h := roundPos_eval (7 / 10) (-1) 6305039478318694 (by norm_num) (by norm_num)
    (by norm_num) (by norm_num) (by rw [abs_lt]; norm_num)
  norm_num at h ⊢
  exact h

theorem roundPos_forty_five_ratio :
    roundPos (45 * (6305039478318694 * 2 ^ (-53 : Int)))
      = 8866461766385663 * 2 ^ (-48 : Int) := by
  have h := roundPos_eval (45 * (6305039478318694 * 2 ^ (-53 : Int))) 4 8866461766385663
    (by norm_num) (by norm_num) (by norm_num) (by norm_num) (by rw [abs_lt]; norm_num)
  norm_num at h ⊢
  exact h

/-- C5, as stated, fails in two ways.  When the target pane cannot scroll (`T = 0`) and
the source pane is scrolled to its end (`s = S = 100`), the handler writes 1, which is
above `T`.  And for `S = 10`, `T = 45`, `s = 7` the handler writes 31, because the
ratio `7 / 10` and its product with 45 are each rounded to a double, whereas
`round(max(1,T) * s / max(1,S))` is 32. -/
theorem handleScroll_range_counterexample :
    ((handleScroll (pairedPage ⟨200, 100, .fin 100⟩ ⟨100, 100, .fin 0⟩) .left).get
        .right).container.scrollTop = .fin 1 ∧
    (0 : ℚ) ≤ 100 ∧ (100 : ℚ) ≤ ((200 - 100 : Int) : ℚ) ∧
    ¬ ((1 : ℚ) ≤ ((100 - 100 : Int) : ℚ)) ∧
    ((handleScroll (pairedPage ⟨110, 100, .fin 7⟩ ⟨145, 100, .fin 0⟩) .left).get
        .right).container.scrollTop = .fin 31 ∧
    mathRound (((max 1 (145 - 100) : Int) : ℚ) * 7 / ((max 1 (110 - 100) : Int) : ℚ))
      = 32 := by
  refine ⟨?_, by norm_num, by norm_num, by norm_num, ?_, ?_⟩
  · rw [handleScroll_writes (pairedPage ⟨200, 100, .fin 100⟩ ⟨100, 100, .fin 0⟩)
      .left .right rfl rfl (by decide)]
    have h := (targetScrollTop_fin ⟨200, 100, .fin 100⟩ ⟨100, 100, .fin 0⟩ 100 rfl
      (by norm_num) (by norm_num) (by norm_num)).1
    simp only [Page.get, pairedPage]
    rw [h]
    have e1 : ((max 1 ((200 : Int) - 100) : Int) : ℚ) = 100 := by norm_num
    have e2 : ((max 1 ((100 : Int) - 100) : Int) : ℚ) = 1 := by norm_num
    have e3 : roundDouble ((100 : ℚ) / 100) = 1 := by
      rw [roundDouble_of_nonneg (by norm_num)]
      norm_num
      exact roundPos_one
    have e4 : roundDouble ((1 : ℚ) * 1) = 1 := by
      rw [roundDouble_of_nonneg (by norm_num)]
      norm_num
      exact roundPos_one
    rw [e1, e2, e3, e4]
    have := mathRound_intCast 1
    norm_num at this ⊢
    exact this
  · rw [handleScroll_writes (pairedPage ⟨110, 100, .fin 7⟩ ⟨145, 100, .fin 0⟩)
      .left .right rfl rfl (by decide)]
    have h := (targetScrollTop_fin ⟨110, 100, .fin 7⟩ ⟨145, 100, .fin 0⟩ 7 rfl
      (by norm_num) (by norm_num) (by norm_num)).1
    simp only [Page.get, pairedPage]
    rw [h]
    have e1 : ((max 1 ((110 : Int) - 100) : Int) : ℚ) = 10 := by norm_num
    have e2 : ((max 1 ((145 : Int) - 100) : Int) : ℚ) = 45 := by norm_num
    have e3 : roundDouble ((7 : ℚ) / 10) = 6305039478318694 * 2 ^ (-53 : Int) := by
      rw [roundDouble_of_nonneg (by norm_num)]
      exact roundPos_seven_tenths
    have e4 : roundDouble ((45 : ℚ) * (6305039478318694 * 2 ^ (-53 : Int)))
        = 8866461766385663 * 2 ^ (-48 : Int) := by
      rw [roundDouble_of_nonneg (by norm_num)]
      exact roundPos_forty_five_ratio
    rw [e1, e2, e3, e4]
    have e5 : mathRound (8866461766385663 * 2 ^ (-48 : Int)) = 31 := by
      unfold mathRound
      rw [Int.floor_eq_iff]
      constructor <;> norm_num
    rw [e5]
    norm_num
  · have e1 : ((max 1 ((110 : Int) - 100) : Int) : ℚ) = 10 := by norm_num
    have e2 : ((max 1 ((145 : Int) - 100) : Int) : ℚ) = 45 := by norm_num
    rw [e1, e2]
    unfold mathRound
    rw [Int.floor_eq_iff]
    constructor <;> norm_num

/-- C5 (amended): with `S` and `T` the scrollable ranges of the source and the target
pane (`T` below `2 ^ 53`, as every DOM integer is) and `0 ≤ s ≤ S` the source
`scrollTop`, the value that `handleScroll` writes to the target's `scrollTop`, once it
has found the target container, is `Math.round` of the double product of `max(1,T)`
and the double quotient `s / max(1,S)`; it lies in `[0, max(1,T)]` (hence in `[0, T]`
when `T ≥ 1`), is 0 when `s = 0`, and is `max(1,T)` when `s = S` and `S ≥ 1` (hence `T`
when also `T ≥ 1`). -/
theorem handleScroll_proportional (w : Page) (s t : Side) (top : ℚ)
    (hsync : (w.get s).isSyncing = false) (hres : w.resolve s = some t) (hne : t ≠ s)
    (htop : (w.get s).container.scrollTop = .fin top)
    (h0 : 0 ≤ top)
    (hS : top
      ≤ (((w.get s).container.scrollHeight - (w.get s).container.clientHeight : Int) : ℚ))
    (hT : (w.get t).container.scrollHeight - (w.get t).container.clientHeight < 2 ^ 53) :
    ∃ v : Int,
      ((handleScroll w s).get t).container.scrollTop = .fin (v : ℚ) ∧
      v = mathRound (roundDouble
        (((max 1 ((w.get t).container.scrollHeight - (w.get t).container.clientHeight)
            : Int) : ℚ)
          * roundDouble (top
            / ((max 1 ((w.get s).container.scrollHeight - (w.get s).container.clientHeight)
              : Int) : ℚ)))) ∧
      0 ≤ v ∧
      v ≤ max 1 ((w.get t).container.scrollHeight - (w.get t).container.clientHeight) ∧
      (1 ≤ (w.get t).container.scrollHeight - (w.get t).container.clientHeight →
        v ≤ (w.get t).container.scrollHeight - (w.get t).container.clientHeight) ∧
      (top = 0 → v = 0) ∧
      (top = (((w.get s).container.scrollHeight - (w.get s).container.clientHeight : Int) : ℚ) →
        1 ≤ (w.get s).container.scrollHeight - (w.get s).container.clientHeight →
        v = max 1 ((w.get t).container.scrollHeight - (w.get t).container.clientHeight)) ∧
      (top = (((w.get s).container.scrollHeight - (w.get s).container.clientHeight : Int) : ℚ) →
        1 ≤ (w.get s).container.scrollHeight - (w.get s).container.clientHeight →
        1 ≤ (w.get t).container.scrollHeight - (w.get t).container.clientHeight →
        v = (w.get t).container.scrollHeight - (w.get t).container.clientHeight) := by
  obtain ⟨hval, hv0, hv1⟩ :=
    targetScrollTop_fin (w.get s).container (w.get t).container top htop h0 hS hT
  have hwr := handleScroll_writes w s t hsync hres hne
  generalize (w.get s).container = src at *
  generalize (w.get t).container = tgt at *
  generalize hSdef : src.scrollHeight - src.clientHeight = S at *
  generalize hTdef : tgt.scrollHeight - tgt.clientHeight = T at *
  have hT53 : max 1 T < 2 ^ 53 := max_lt (by norm_num) hT
  have hT0 : 0 ≤ max 1 T := by have := le_max_left 1 T; omega
  have hle : mathRound (roundDouble (((max 1 T : Int) : ℚ)
      * roundDouble (top / ((max 1 S : Int) : ℚ)))) ≤ max 1 T := mathRound_le _ _ hv1
  have hend : top = ((S : Int) : ℚ) → 1 ≤ S →
      mathRound (roundDouble (((max 1 T : Int) : ℚ)
        * roundDouble (top / ((max 1 S : Int) : ℚ)))) = max 1 T := by
    intro hs h1
    have hSq : (1 : ℚ) ≤ (S : ℚ) := by exact_mod_cast h1
    rw [hs, max_eq_right h1, div_self (by linarith),
      roundDouble_of_nonneg (by norm_num : (0 : ℚ) ≤ 1), roundPos_one, mul_one,
      roundDouble_of_nonneg (by exact_mod_cast hT0), roundPos_intCast _ hT0 hT53,
      mathRound_intCast]
  refine ⟨_, ?_, rfl, mathRound_nonneg _ hv0, hle, ?_, ?_, hend, ?_⟩
  · rw [hwr, hval]
  · intro hT1
    exact le_trans hle (le_of_eq (max_eq_right hT1))
  · intro hs
    rw [hs, zero_div, roundDouble_of_nonneg le_rfl, roundPos_zero, mul_zero,
      roundDouble_of_nonneg le_rfl, roundPos_zero]
    exact mathRound_intCast 0
  · intro hs h1 hT1
    rw [hend hs h1, max_eq_right hT1]

theorem handleScroll_proportional_witness :
    ∃ v : Int,
      ((handleScroll (pairedPage ⟨300, 100, .fin 50⟩ ⟨500, 100, .fin 0⟩) .left).get
        .right).container.scrollTop = .fin (v : ℚ) ∧
      0 ≤ v ∧ v ≤ max 1 (500 - 100) := by
  obtain ⟨v, h1, _, h3, h4, _⟩ :=
    handleScroll_proportional (pairedPage ⟨300, 100, .fin 50⟩ ⟨500, 100, .fin 0⟩)
      .left .right 50 rfl rfl (by decide) rfl (by norm_num)
      (by norm_num [pairedPage, Page.get]) (by norm_num [pairedPage, Page.get])
  exact ⟨v, h1, h3, h4⟩

theorem cascade_nil (n : Nat) (w : Page) (h : w.queue = []) : cascade n w = w := by
  cases n with
  | zero => rfl
  | succ n => simp [cascade, h]

/-- C9: the sync flag stops the scroll cascade.  From any state of the two previews
(whatever their flags and whatever element each handler finds), one scroll event on a
pane leads to at most two `scrollTop` writes, after which no event is left, however
many further deliveries are allowed; a handler that runs while its own `isSyncing` is
set leaves the page, and so every scroll position, as it is; and from two idle previews
with paired ids the cascade is exactly two writes long. -/
theorem scroll_cascade_stops (w : Page) (p : Side) (k : Nat) :
    (cascade (k + 3) { w with queue := [p] }).queue = [] ∧
    (cascade (k + 3) { w with queue := [p] }).writes ≤ w.writes + 2 ∧
    (∀ s, (w.get s).isSyncing = true → handleScroll w s = w) ∧
    (∀ l r : Pane, (cascade (k + 3) { pairedPage l r with queue := [p] }).writes = 2) := by
  refine ⟨?_, ?_, ?_, ?_⟩
  · rcases w with ⟨⟨lc, ls, lp⟩, ⟨rc, rs, rp⟩, res, q, n⟩
    rcases hl : res .left with _ | (_ | _) <;> rcases hr : res .right with _ | (_ | _) <;>
      cases p <;> cases ls <;> cases rs <;>
      simp [cascade, handleScroll, Page.get, Page.set, hl, hr, cascade_nil]
  · rcases w with ⟨⟨lc, ls, lp⟩, ⟨rc, rs, rp⟩, res, q, n⟩
    rcases hl : res .left with _ | (_ | _) <;> rcases hr : res .right with _ | (_ | _) <;>
      cases p <;> cases ls <;> cases rs <;>
      simp [cascade, handleScroll, Page.get, Page.set, hl, hr, cascade_nil]
  · intro s hs
    simp [handleScroll, hs]
  · intro l r
    cases p <;> simp [cascade, handleScroll, Page.get, Page.set, pairedPage, pairedIds,
      cascade_nil]

theorem scroll_cascade_stops_witness :
    handleScroll
        { pairedPage ⟨300, 100, .fin 50⟩ ⟨500, 100, .fin 0⟩ with left := ⟨⟨300, 100, .fin 50⟩, true, 1⟩ }
        .left
      = { pairedPage ⟨300, 100, .fin 50⟩ ⟨500, 100, .fin 0⟩ with left := ⟨⟨300, 100, .fin 50⟩, true, 1⟩ } :=
  (scroll_cascade_stops
      { pairedPage ⟨300, 100, .fin 50⟩ ⟨500, 100, .fin 0⟩ with left := ⟨⟨300, 100, .fin 50⟩, true, 1⟩ }
      .left 0).2.2.1 .left rfl


theorem ofRat_zero : JSNum.ofRat 0 = .fin 0 := by
  have h := ofRat_of_nonneg (le_refl (0 : ℚ)) (by rw [roundPos_zero]; norm_num)
  rwa [roundPos_zero] at h

theorem roundPos_one_sub_ulp :
    roundPos (1 - 2 ^ (-53 : Int)) = 1 - 2 ^ (-53 : Int) := by
  have hexp : binadeExp (1 - 2 ^ (-53 : Int)) = -1 :=
    binadeExp_eq _ (-1) (by norm_num) (by norm_num) (by norm_num) (by norm_num)
  apply roundPos_eq_self _ (2 ^ 53 - 1 : Int)
  unfold ulp
  rw [hexp]
  norm_num

/-- The double quotient `a / b` of two integers with `1 ≤ a < b ≤ 2 ^ 53`, and the
double quotient of 100 by it. -/
theorem scale_fin (a b : ℚ) (ha : 1 ≤ a) (hab : a + 1 ≤ b) (hb : b ≤ 2 ^ 53) :
    JSNum.div (.fin a) (.fin b) = .fin (roundDouble (a / b)) ∧
    0 < roundDouble (a / b) ∧ roundDouble (a / b) < 1 ∧
    |roundDouble (a / b) - a / b| ≤ a / b * 2 ^ (-53 : Int) ∧
    JSNum.div (.fin 100) (.fin (roundDouble (a / b)))
      = .fin (roundDouble (100 / roundDouble (a / b))) := by
  have hbpos : 0 < b := by linarith
  have hx0 : 0 < a / b := div_pos (by linarith) hbpos
  have h53 : (2 : ℚ) ^ (-53 : Int) = 1 / 2 ^ 53 := by norm_num
  have hxlo : (2 : ℚ) ^ (-53 : Int) ≤ a / b := by
    rw [h53, div_le_div_iff₀ (by positivity) hbpos]
    nlinarith
  have hxhi : a / b ≤ 1 - 2 ^ (-53 : Int) := by
    rw [h53, div_le_iff₀ hbpos]
    have : (1 - 1 / 2 ^ 53 : ℚ) * b = b - b / 2 ^ 53 := by ring
    rw [this]
    have : b / 2 ^ 53 ≤ 1 := by
      rw [div_le_one (by positivity)]
      exact hb
    linarith
  rw [roundDouble_of_nonneg hx0.le]
  have hklo : (2 : ℚ) ^ (-53 : Int) ≤ roundPos (a / b) := by
    have := roundPos_mono (two_zpow_pos (-53)) hxlo
    rwa [roundPos_two_zpow (-53) (by norm_num)] at this
  have hkhi : roundPos (a / b) ≤ 1 - 2 ^ (-53 : Int) := by
    have := roundPos_mono hx0 hxhi
    rwa [roundPos_one_sub_ulp] at this
  have hkpos : 0 < roundPos (a / b) := lt_of_lt_of_le (two_zpow_pos (-53)) hklo
  have hklt : roundPos (a / b) < 1 := by
    have := two_zpow_pos (-53)
    linarith
  have hlog : -1022 ≤ Int.log 2 (a / b) := by
    have : (-53 : Int) ≤ Int.log 2 (a / b) :=
      (Int.zpow_le_iff_le_log (by norm_num : 1 < 2) hx0).mp (by exact_mod_cast hxlo)
    omega
  have hq0 : 0 < 100 / roundPos (a / b) := div_pos (by norm_num) hkpos
  have hq60 : 100 / roundPos (a / b) ≤ 2 ^ (60 : Int) := by
    rw [div_le_iff₀ hkpos]
    have : (2 : ℚ) ^ (60 : Int) * 2 ^ (-53 : Int) ≤ 2 ^ (60 : Int) * roundPos (a / b) :=
      mul_le_mul_of_nonneg_left hklo (two_zpow_pos 60).le
    rw [two_zpow_add] at this
    norm_num at this ⊢
    linarith
  have hr60 : roundPos (100 / roundPos (a / b)) ≤ 2 ^ (60 : Int) := by
    have := roundPos_mono hq0 hq60
    rwa [roundPos_two_zpow 60 (by norm_num)] at this
  refine ⟨?_, hkpos, hklt, roundPos_abs_sub_le _ hx0 hlog, ?_⟩
  · simp only [JSNum.div, if_neg hbpos.ne']
    exact ofRat_of_nonneg hx0.le (lt_trans hklt (by norm_num))
  · simp only [JSNum.div, if_neg hkpos.ne']
    rw [roundDouble_of_nonneg hq0.le]
    exact ofRat_of_nonneg hq0.le (lt_of_le_of_lt hr60 (by norm_num))

theorem roundPos_one_forty_ninth :
    roundPos (1 / 49) = 5882252574524729 * 2 ^ (-58 : Int) := by
  have h := roundPos_eval (1 / 49) (-6) 5882252574524729 (by norm_num) (by norm_num)
    (by norm_num) (by norm_num) (by rw [abs_lt]; norm_num)
  norm_num at h ⊢
  exact h

/-- C6, as stated, fails in two ways.  For a container of client width 32 and content
of width 50 the scaling branch is taken, the scale factor is 0 and the width percentage
`100 / 0` is infinite.  And for client width 33 and content of width 49 the scale
factor is the double nearest to `1 / 49`, whose product with 49 is not 1. -/
theorem adjustScale_counterexample :
    ((50 : Int) > (32 : Int) - 32) ∧
    (adjustScale plainStyle ⟨50, 80, 32, 100⟩).transform = .scale (.fin 0) ∧
    ¬ ((0 : ℚ) < 0) ∧
    (adjustScale plainStyle ⟨50, 80, 32, 100⟩).width = .percent .posInf ∧
    ((49 : Int) > (33 : Int) - 32) ∧
    (adjustScale plainStyle ⟨49, 80, 33, 100⟩).transform
      = .scale (.fin (5882252574524729 * 2 ^ (-58 : Int))) ∧
    (49 : ℚ) * (5882252574524729 * 2 ^ (-58 : Int)) ≠ (33 : ℚ) - 32 := by
  have hz : JSNum.div (.fin 0) (.fin 50) = .fin 0 := by
    simp only [JSNum.div]
    norm_num
    exact ofRat_zero
  have hs : JSNum.div (.fin 1) (.fin 49) = .fin (5882252574524729 * 2 ^ (-58 : Int)) := by
    simp only [JSNum.div]
    norm_num
    have h := ofRat_of_nonneg (by norm_num : (0 : ℚ) ≤ 1 / 49)
      (by rw [roundPos_one_forty_ninth]; norm_num)
    rw [roundPos_one_forty_ninth] at h
    norm_num at h ⊢
    exact h
  refine ⟨by decide, ?_, by norm_num, ?_, by decide, ?_, by norm_num⟩
  · simp only [adjustScale]
    norm_num
    exact hz
  · simp only [adjustScale]
    norm_num
    rw [hz]
    simp [JSNum.div]
  · simp only [adjustScale]
    norm_num at hs ⊢
    exact hs

/-- C6 (amended): when the scaling branch is taken (`w > c - 32`), the container is
wider than its padding (`c > 32`) and `w ≤ 2 ^ 53` (as every DOM integer is), the
applied scale factor `k`, the double nearest to `(c - 32) / w`, satisfies `0 < k < 1`
and `w * k = c - 32` up to a relative error of `2 ^ -53`, and the width set is the
finite percentage given by the double quotient `100 / k`; when the branch is not
taken, no transform is applied and the width is 100%. -/
theorem adjustScale_fits (style : Style) (m : Measure) :
    ((m.scrollWidth : Int) > (m.clientWidth : Int) - 32 → 32 < m.clientWidth →
      m.scrollWidth ≤ 2 ^ 53 →
      ∃ k : ℚ,
        (adjustScale style m).transform = .scale (.fin k) ∧
        k = roundDouble (((m.clientWidth : ℚ) - 32) / (m.scrollWidth : ℚ)) ∧
        0 < k ∧ k < 1 ∧
        |(m.scrollWidth : ℚ) * k - ((m.clientWidth : ℚ) - 32)|
          ≤ ((m.clientWidth : ℚ) - 32) * 2 ^ (-53 : Int) ∧
        (adjustScale style m).width = .percent (.fin (roundDouble (100 / k)))) ∧
    (¬ ((m.scrollWidth : Int) > (m.clientWidth : Int) - 32) →
      (adjustScale style m).transform = .none ∧
      (adjustScale style m).width = .percent (.fin 100)) := by
  constructor
  · intro hbranch hc hw
    have ha : (1 : ℚ) ≤ (m.clientWidth : ℚ) - 32 := by
      have : (33 : ℚ) ≤ (m.clientWidth : ℚ) := by exact_mod_cast hc
      linarith
    have hab : (m.clientWidth : ℚ) - 32 + 1 ≤ (m.scrollWidth : ℚ) := by
      have h : (m.clientWidth : Int) - 32 + 1 ≤ (m.scrollWidth : Int) := by omega
      have h2 : (((m.clientWidth : Int) - 32 + 1 : Int) : ℚ) ≤ ((m.scrollWidth : Int) : ℚ) := by
        exact_mod_cast h
      push_cast at h2
      exact h2
    have hb : (m.scrollWidth : ℚ) ≤ 2 ^ 53 := by exact_mod_cast hw
    have hwpos : (0 : ℚ) < (m.scrollWidth : ℚ) := by linarith
    obtain ⟨hdiv, hk0, hk1, herr, hwidth⟩ :=
      scale_fin ((m.clientWidth : ℚ) - 32) (m.scrollWidth : ℚ) ha hab hb
    refine ⟨_, ?_, rfl, hk0, hk1, ?_, ?_⟩
    · simp only [adjustScale, if_pos hbranch]
      push_cast
      rw [hdiv]
    · have hmul : (m.scrollWidth : ℚ)
            * roundDouble (((m.clientWidth : ℚ) - 32) / (m.scrollWidth : ℚ))
          - ((m.clientWidth : ℚ) - 32)
          = (m.scrollWidth : ℚ)
            * (roundDouble (((m.clientWidth : ℚ) - 32) / (m.scrollWidth : ℚ))
              - ((m.clientWidth : ℚ) - 32) / (m.scrollWidth : ℚ)) := by
        field_simp
        ring
      rw [hmul, abs_mul, abs_of_pos hwpos]
      calc (m.scrollWidth : ℚ)
            * |roundDouble (((m.clientWidth : ℚ) - 32) / (m.scrollWidth : ℚ))
              - ((m.clientWidth : ℚ) - 32) / (m.scrollWidth : ℚ)|
          ≤ (m.scrollWidth : ℚ)
            * (((m.clientWidth : ℚ) - 32) / (m.scrollWidth : ℚ) * 2 ^ (-53 : Int)) :=
            mul_le_mul_of_nonneg_left herr hwpos.le
        _ = ((m.clientWidth : ℚ) - 32) * 2 ^ (-53 : Int) := by
            field_simp
            ring
    · simp only [adjustScale, if_pos hbranch]
      push_cast
      rw [hdiv, hwidth]
  · intro hbranch
    simp [adjustScale, hbranch]

theorem adjustScale_fits_witness :
    ∃ k : ℚ,
      (adjustScale plainStyle ⟨1000, 2000, 532, 800⟩).transform = .scale (.fin k) ∧
      0 < k ∧ k < 1 ∧
      |((1000 : Nat) : ℚ) * k - (((532 : Nat) : ℚ) - 32)|
        ≤ (((532 : Nat) : ℚ) - 32) * 2 ^ (-53 : Int) := by
  obtain ⟨k, h1, _, h3, h4, h5, _⟩ :=
    (adjustScale_fits plainStyle ⟨1000, 2000, 532, 800⟩).1 (by decide) (by decide)
      (by norm_num)
  exact ⟨k, h1, h3, h4, h5⟩


end DocCompare
